import Mathlib

/-!
Verification of the cloudify/faast.js invocation engine specification
against a shallow embedding of the repository's TypeScript sources.

Each section embeds the functions of one source file (named in the
section comment) and proves or refutes the spec claims about them.
Timestamps and latencies are modelled as rationals (JS numbers used for
millisecond arithmetic), counters as naturals, and fallible operations
as `Option`/`Except`.
-/

namespace Cloudify

/-! ### Clock-skew estimator (src/cloudify.ts, processResponse)

`ExponentiallyDecayingAverageValue` lives in shared.ts which is not in
the source tree; it is modelled from the spec.
-/

/-- Modelled from the spec: shared.ts (absent from src) defines
`ExponentiallyDecayingAverageValue` with smoothing weight 0.3,
initialized empty; `update` folds a new sample into the running value,
and the first update seeds the value with the sample itself. -/
def edaUpdate (prev : Option ℚ) (n : ℚ) : ℚ :=
  match prev with
  | none => n
  | some v => v * (7/10) + n * (3/10)

/-- JS truthiness of an optional numeric timestamp: `undefined` and `0`
are falsy, anything else truthy (embeds the guard
`if (remoteExecutionStartTime && remoteExecutionEndTime)`). -/
def truthy (x : Option ℚ) : Bool :=
  match x with
  | none => false
  | some v => v != 0

/-- JS `a || b` on an optional number: falls through to `b` when `a` is
`undefined` or `0` (embeds `remoteResponseSentTime || remoteExecutionEndTime`). -/
def jsOrElse (a : Option ℚ) (b : ℚ) : ℚ :=
  match a with
  | none => b
  | some v => if v = 0 then b else v

/-- Embeds the skew-application kernel of `processResponse`
(src/cloudify.ts lines 316-320): `estimatedSkew` is used directly unless
`fcounters.aggregate.completed > 1`, in which case it is folded into the
exponentially decaying average `prevSkew` and the folded value is used.
Returns the applied skew and the (possibly updated) average state. -/
def appliedSkew (completedSoFar : ℕ) (prev : Option ℚ) (estimatedSkew : ℚ) :
    ℚ × Option ℚ :=
  if 1 < completedSoFar then
    let v := edaUpdate prev estimatedSkew
    (v, some v)
  else
    (estimatedSkew, prev)

/-- The sequence of applied skews over successive completed calls:
threads the aggregate completed-counter (incremented once per call, per
the tail of `processResponse`) and the decaying-average state through
`appliedSkew`. Input: the per-call `estimatedSkew` values. -/
def skewTraceGo (completed : ℕ) (prev : Option ℚ) : List ℚ → List ℚ
  | [] => []
  | s :: rest =>
    let p := appliedSkew completed prev s
    p.1 :: skewTraceGo (completed + 1) p.2 rest

/-- Applied skews for a run of completed calls starting from a fresh
instance (completed counter 0, empty average). -/
def skewTrace (sks : List ℚ) : List ℚ := skewTraceGo 0 none sks

/-- Modelled from the spec: the claim's reading of §4.2 — the first
completed call uses `thisSkew` directly (seeding the EWMA with it), and
every later call folds its `thisSkew` into the EWMA and applies the
folded value. Compared against `skewTrace` from the source. -/
def claimSkewTraceGo (isFirst : Bool) (prev : Option ℚ) : List ℚ → List ℚ
  | [] => []
  | s :: rest =>
    if isFirst then
      s :: claimSkewTraceGo false (some s) rest
    else
      let v := edaUpdate prev s
      v :: claimSkewTraceGo false (some v) rest

/-- Modelled from the spec: full claim trace starting at the first call. -/
def claimSkewTrace (sks : List ℚ) : List ℚ := claimSkewTraceGo true none sks

/-- The amended behaviour, stated index-explicitly: the first two
completed calls apply `thisSkew` directly and leave the EWMA untouched;
from the third call on the EWMA is folded (the third call therefore
seeds it) and the folded value is applied. -/
def amendedSkewTraceGo (idx : ℕ) (prev : Option ℚ) : List ℚ → List ℚ
  | [] => []
  | s :: rest =>
    if idx < 2 then
      s :: amendedSkewTraceGo (idx + 1) prev rest
    else
      let v := edaUpdate prev s
      v :: amendedSkewTraceGo (idx + 1) (some v) rest

/-- Amended trace from a fresh instance. -/
def amendedSkewTrace (sks : List ℚ) : List ℚ := amendedSkewTraceGo 0 none sks

/-! Timing computation of `processResponse` (src/cloudify.ts 305-344). -/

/-- Timing fields of `FunctionReturnWithMetrics` together with the local
call start time, as consumed by `processResponse`. -/
structure TimingInputs where
  localStartTime : ℚ
  localRequestSentTime : ℚ
  localEndTime : ℚ
  remoteResponseSentTime : Option ℚ
  remoteExecutionStartTime : Option ℚ
  remoteExecutionEndTime : Option ℚ

/-- Latency samples recorded by `processResponse` when both remote
timestamps are present. -/
structure Latencies where
  localStartLatency : ℚ
  remoteStartLatency : ℚ
  executionLatency : ℚ
  sendResponseLatency : ℚ
  returnLatency : ℚ
  estimatedBilledTime : ℚ
deriving DecidableEq

/-- The `estimatedSkew` computed by `processResponse` from the timing
fields: half the residual network latency positions the remote start on
the local clock, and the skew is the difference to the reported remote
start. -/
def estimatedSkewOf (t : TimingInputs) (s e : ℚ) : ℚ :=
  let roundTripLatency := t.localEndTime - t.localRequestSentTime
  let executionLatency := e - s
  let sendResponseLatency := max 0 (jsOrElse t.remoteResponseSentTime e - e)
  let networkLatency := roundTripLatency - executionLatency - sendResponseLatency
  let estimatedRemoteStartTime := t.localRequestSentTime + networkLatency / 2
  estimatedRemoteStartTime - s

/-- Latency samples computed by `processResponse` for remote execution
window `[s, e]` under applied skew `skew`, following lines 306-335 of
src/cloudify.ts. -/
def latenciesOf (t : TimingInputs) (s e skew : ℚ) : Latencies :=
  { localStartLatency := t.localRequestSentTime - t.localStartTime
    remoteStartLatency := max 1 (s + skew - t.localRequestSentTime)
    executionLatency := e - s
    sendResponseLatency := max 0 (jsOrElse t.remoteResponseSentTime e - e)
    returnLatency := max 1 (t.localEndTime - (e + skew))
    estimatedBilledTime :=
      max 100 ((⌈((e - s) + max 0 (jsOrElse t.remoteResponseSentTime e - e)) / 100⌉ : ℚ) * 100) }

/-- Embeds the timing block of `processResponse`: when both remote
timestamps are truthy, computes all latency samples with the applied
skew; otherwise records nothing. Returns the samples (if any) and the
updated decaying-average state. -/
def processLatencies (t : TimingInputs) (completedSoFar : ℕ) (prev : Option ℚ) :
    Option Latencies × Option ℚ :=
  match t.remoteExecutionStartTime, t.remoteExecutionEndTime with
  | some s, some e =>
    if s ≠ 0 ∧ e ≠ 0 then
      let p := appliedSkew completedSoFar prev (estimatedSkewOf t s e)
      (some (latenciesOf t s e p.1), p.2)
    else (none, prev)
  | _, _ => (none, prev)

lemma skewTraceGo_eq_amended (sks : List ℚ) :
    ∀ (i : ℕ) (prev : Option ℚ), skewTraceGo i prev sks = amendedSkewTraceGo i prev sks := by
  induction sks with
  | nil => intro i prev; rfl
  | cons s rest ih =>
    intro i prev
    by_cases h : i < 2
    · have h1 : ¬ 1 < i := by omega
      simp [skewTraceGo, amendedSkewTraceGo, appliedSkew, h, h1, ih]
    · have h1 : 1 < i := by omega
      simp [skewTraceGo, amendedSkewTraceGo, appliedSkew, h, h1, ih]

/-- Claim C1 counterexample: with estimated skews 0 then 10 on the first
two completed calls, `processResponse` applies 10 (the raw `thisSkew`)
on the second completed call, whereas the claim requires the
EWMA-folded value 3; the traces differ at the second call. -/
theorem c1_skew_second_call_counterexample :
    skewTrace [0, 10] ≠ claimSkewTrace [0, 10] := by
  have h1 : skewTrace [0, 10] = [0, 10] := by
    norm_num [skewTrace, skewTraceGo, appliedSkew, edaUpdate]
  have h2 : claimSkewTrace [0, 10] = [0, 3] := by
    simp [claimSkewTrace, claimSkewTraceGo, edaUpdate]
    norm_num
  rw [h1, h2]
  intro h
  have h10 := congrArg (fun l => l.getD 1 0) h
  simp at h10

/-- Claim C1 (amended): the EWMA fold is gated on
`fcounters.aggregate.completed > 1`, which is checked before the counter
is incremented for the current call; therefore the first two completed
calls apply `thisSkew` directly without touching the EWMA, and folding
(seeding the EWMA) begins only at the third completed call. -/
theorem c1_skew_fold_begins_at_third_call (sks : List ℚ) :
    skewTrace sks = amendedSkewTrace sks :=
  skewTraceGo_eq_amended sks 0 none

/-- Claim C2: for every terminal response carrying truthy remote start
and end timestamps, the recorded `remoteStartLatency` is
`max(1, remoteStart + skew - localSent)` and the recorded
`returnLatency` is `max(1, localEnd - (remoteEnd + skew))`, where `skew`
is the applied skew; both are therefore at least 1. -/
theorem c2_latency_skew_correction (t : TimingInputs) (completed : ℕ)
    (prev : Option ℚ) (s e : ℚ)
    (hs : t.remoteExecutionStartTime = some s)
    (he : t.remoteExecutionEndTime = some e)
    (hs0 : s ≠ 0) (he0 : e ≠ 0) :
    ∃ l, (processLatencies t completed prev).1 = some l ∧
      l.remoteStartLatency =
        max 1 (s + (appliedSkew completed prev (estimatedSkewOf t s e)).1 -
          t.localRequestSentTime) ∧
      l.returnLatency =
        max 1 (t.localEndTime -
          (e + (appliedSkew completed prev (estimatedSkewOf t s e)).1)) ∧
      1 ≤ l.remoteStartLatency ∧ 1 ≤ l.returnLatency := by
  refine ⟨latenciesOf t s e (appliedSkew completed prev (estimatedSkewOf t s e)).1,
    ?_, rfl, rfl, le_max_left 1 _, le_max_left 1 _⟩
  simp [processLatencies, hs, he, hs0, he0]

/-- Witness for C2 at a concrete response: local send at 10, local end
at 500, remote execution from 100 to 200, response sent at 210. -/
theorem c2_latency_skew_correction_witness :
    ∃ l, (processLatencies ⟨0, 10, 500, some 210, some 100, some 200⟩ 0 none).1 = some l ∧
      l.remoteStartLatency =
        max 1 (100 + (appliedSkew 0 none (estimatedSkewOf ⟨0, 10, 500, some 210, some 100, some 200⟩ 100 200)).1 - 10) ∧
      l.returnLatency =
        max 1 (500 - (200 + (appliedSkew 0 none (estimatedSkewOf ⟨0, 10, 500, some 210, some 100, some 200⟩ 100 200)).1)) ∧
      1 ≤ l.remoteStartLatency ∧ 1 ≤ l.returnLatency :=
  c2_latency_skew_correction ⟨0, 10, 500, some 210, some 100, some 200⟩ 0 none
    100 200 rfl rfl (by norm_num) (by norm_num)

/-! ### Error surfacing (src/module-wrapper.ts createErrorResponse,
src/cloudify.ts processResponse error branch) -/

/-- Value of an own property of a JS error object, as far as the
`typeof err[name] === "string"` filter cares: a string or anything else. -/
inductive PropValue where
  | str (s : String)
  | nonString
deriving DecidableEq

/-- An error object, viewed as its list of own properties
(`Object.getOwnPropertyNames` order). -/
def ErrObject := List (String × PropValue)

/-- Embeds `createErrorResponse` (module-wrapper.ts lines 65-70): the
serialized error value keeps exactly the own properties whose values
are strings. -/
def createErrorResponse (err : List (String × PropValue)) : List (String × String) :=
  err.filterMap fun p =>
    match p.2 with
    | .str s => some (p.1, s)
    | .nonString => none

/-- Lookup of an own property on the serialized error value (JS property
access, first binding wins; absent gives `undefined`). -/
def errLookup (obj : List (String × String)) (k : String) : Option String :=
  (obj.find? fun p => p.1 = k).map Prod.snd

/-- The `Error` reconstructed by `processResponse` (cloudify.ts lines
288-290): `new Error(errValue.message)` followed by assignments of
`name` and `stack`. Its own string-valued properties are exactly these
three. -/
structure SurfacedError where
  name : Option String
  message : Option String
  stack : Option String
deriving DecidableEq

/-- Embeds the error branch of `processResponse`: only `message`,
`name` and `stack` are read off the serialized error value. -/
def surfaceError (errValue : List (String × String)) : SurfacedError :=
  { name := errLookup errValue "name"
    message := errLookup errValue "message"
    stack := errLookup errValue "stack" }

/-- Own string property `k` of the surfaced error object. -/
def surfacedProp (e : SurfacedError) (k : String) : Option String :=
  if k = "name" then e.name
  else if k = "message" then e.message
  else if k = "stack" then e.stack
  else none

/-- A remote error carrying an extra own string property `code`. -/
def c3err : List (String × PropValue) :=
  [("message", .str "not found"), ("stack", .str "trace"),
   ("name", .str "MyError"), ("code", .str "ENOENT")]

/-- Claim C3 counterexample: a remote error with own string property
`code = "ENOENT"` is serialized with that property, but the error
surfaced to the caller does not carry it; only `name`, `message` and
`stack` survive the client-side reconstruction. -/
theorem c3_extra_string_property_dropped_counterexample :
    errLookup (createErrorResponse c3err) "code" = some "ENOENT" ∧
    surfacedProp (surfaceError (createErrorResponse c3err)) "code" = none := by
  constructor <;> rfl

/-- Claim C3 (amended): the surfaced error preserves exactly the `name`,
`message` and `stack` string properties of the serialized error value;
every other own property of the original error, string-valued or not, is
absent from the surfaced error. -/
theorem c3_surfaced_error_fields (err : List (String × PropValue)) (k : String) :
    (surfaceError (createErrorResponse err)).name =
      errLookup (createErrorResponse err) "name" ∧
    (surfaceError (createErrorResponse err)).message =
      errLookup (createErrorResponse err) "message" ∧
    (surfaceError (createErrorResponse err)).stack =
      errLookup (createErrorResponse err) "stack" ∧
    (k ≠ "name" → k ≠ "message" → k ≠ "stack" →
      surfacedProp (surfaceError (createErrorResponse err)) k = none) := by
  refine ⟨rfl, rfl, rfl, fun h1 h2 h3 => ?_⟩
  simp [surfacedProp, h1, h2, h3]

/-- Witness for C3 (amended) at the concrete error `c3err` and the
property key `code`, with all hypotheses discharged. -/
theorem c3_surfaced_error_fields_witness :
    (surfaceError (createErrorResponse c3err)).name =
      errLookup (createErrorResponse c3err) "name" ∧
    surfacedProp (surfaceError (createErrorResponse c3err)) "code" = none :=
  ⟨(c3_surfaced_error_fields c3err "code").1,
   (c3_surfaced_error_fields c3err "code").2.2.2 (by decide) (by decide) (by decide)⟩

/-! ### Call serialization (src/module-wrapper.ts serializeCall and
deepCopyUndefined; legacy variant in src/unnamed/part_002) -/

/-- JS values as far as JSON serialization of a `FunctionCall` is
concerned. `func` stands for any function value (dropped from objects
and nulled in arrays by `JSON.stringify`); `undef` is `undefined`. -/
inductive Js where
  | null
  | undefVal
  | func
  | bool (b : Bool)
  | num (n : ℤ)
  | str (s : String)
  | arr (xs : List Js)
  | obj (fs : List (String × Js))

/-- Values `JSON.stringify` drops from objects and nulls in arrays. -/
def Js.isDrop : Js → Bool
  | .undefVal => true
  | .func => true
  | _ => false

/-- JS `undefined` test. -/
def Js.isUndefined : Js → Bool
  | .undefVal => true
  | _ => false

/-- Truthy values of type object (`s[key] && typeof s[key] === "object"`):
objects and arrays, excluding `null`. -/
def Js.isObjLike : Js → Bool
  | .obj _ => true
  | .arr _ => true
  | _ => false

mutual
/-- The result of `JSON.parse(JSON.stringify(x))` as a tree transform:
`undefined` and function values become `null` in arrays and are dropped
from objects; everything else survives. -/
def jsonRT : Js → Js
  | .arr xs => .arr (jsonRTList xs)
  | .obj fs => .obj (jsonRTFields fs)
  | .null => .null
  | .undefVal => .null
  | .func => .null
  | .bool b => .bool b
  | .num n => .num n
  | .str s => .str s

/-- Round trip of array elements. -/
def jsonRTList : List Js → List Js
  | [] => []
  | x :: xs => (if x.isDrop then Js.null else jsonRT x) :: jsonRTList xs

/-- Round trip of object fields. -/
def jsonRTFields : List (String × Js) → List (String × Js)
  | [] => []
  | f :: fs =>
    if f.2.isDrop then jsonRTFields fs
    else (f.1, jsonRT f.2) :: jsonRTFields fs
end

/-- JS property read `fs[k]`: first binding, `undefined` when absent. -/
def objGet (fs : List (String × Js)) (k : String) : Js :=
  match fs.find? fun p => p.1 = k with
  | some p => p.2
  | none => .undefVal

/-- In-place update of an existing key (no-op when the key is absent,
matching a mutation of a subobject that only exists when the key does). -/
def objReplace (fs : List (String × Js)) (k : String) (v : Js) :
    List (String × Js) :=
  match fs with
  | [] => []
  | f :: rest => if f.1 = k then (k, v) :: rest else f :: objReplace rest k v

/-- JS property write `fs[k] = v`: replaces an existing binding, else
appends the key. -/
def objPut (fs : List (String × Js)) (k : String) (v : Js) :
    List (String × Js) :=
  if (fs.find? fun p => p.1 = k).isSome then objReplace fs k v
  else fs ++ [(k, v)]

mutual
/-- Embeds `recurse` of `deepCopyUndefined` (module-wrapper.ts 250-263):
walks the source, restoring `undefined`-valued keys onto the
destination and recursing through object-typed values. The back-reference
stack is not needed on inductive (acyclic) values. Returns the patched
destination. -/
def dcuRec (d s : Js) : Js :=
  if d.isUndefined then d
  else
    match s with
    | .obj fs => dcuFields d fs
    | .arr xs => dcuElems d xs 0
    | _ => d

/-- Walk of the source object's fields. -/
def dcuFields (d : Js) (fs : List (String × Js)) : Js :=
  match fs with
  | [] => d
  | (k, v) :: rest =>
    let d1 :=
      if v.isObjLike then
        match d with
        | .obj dfs => Js.obj (objReplace dfs k (dcuRec (objGet dfs k) v))
        | _ => d
      else if v.isUndefined then
        match d with
        | .obj dfs => Js.obj (objPut dfs k .undefVal)
        | _ => d
      else d
    dcuFields d1 rest

/-- Walk of the source array's elements (`Object.keys` of an array are
its indices). -/
def dcuElems (d : Js) (xs : List Js) (i : ℕ) : Js :=
  match xs with
  | [] => d
  | v :: rest =>
    let d1 :=
      if v.isObjLike then
        match d with
        | .arr ds => Js.arr (ds.set i (dcuRec (ds.getD i .undefVal) v))
        | _ => d
      else if v.isUndefined then
        match d with
        | .arr ds => Js.arr (ds.set i .undefVal)
        | _ => d
      else d
    dcuElems d1 rest (i + 1)
end

/-- Embeds `deepCopyUndefined(dest, source)`: recursion happens only for
an object-typed source (a `null` source is unreachable from
`serializeCall`, whose argument is always a call object). -/
def deepCopyUndefined (dst src : Js) : Js :=
  if src.isObjLike then dcuRec dst src else dst

mutual
/-- Embeds node's `assert.deepStrictEqual` on JSON-ish values:
structural equality, object key order insensitive (keys compared by
name, sizes must agree), an own `undefined` property distinct from an
absent one. `func` values compare equal only to themselves. -/
def deepEq : Js → Js → Bool
  | .null, .null => true
  | .undefVal, .undefVal => true
  | .func, .func => true
  | .bool a, .bool b => a == b
  | .num a, .num b => a == b
  | .str a, .str b => a == b
  | .arr xs, .arr ys => deepEqList xs ys
  | .obj fs, .obj gs => fs.length == gs.length && deepEqFields fs gs
  | _, _ => false

/-- Element-wise comparison of arrays. -/
def deepEqList : List Js → List Js → Bool
  | [], [] => true
  | x :: xs, y :: ys => deepEq x y && deepEqList xs ys
  | _, _ => false

/-- Field comparison: every field of the left object must match the
like-named field on the right. -/
def deepEqFields : List (String × Js) → List (String × Js) → Bool
  | [], _ => true
  | (k, v) :: rest, gs =>
    (match gs.find? fun p => p.1 = k with
     | some p => deepEq v p.2
     | none => false) && deepEqFields rest gs
end

mutual
/-- JSON text printer for round-tripped values (no `undef`/`func` occur
in `jsonRT` output, so their clauses are unreachable). -/
def printJson : Js → String
  | .null => "null"
  | .undefVal => "null"
  | .func => "null"
  | .bool b => if b then "true" else "false"
  | .num n => toString n
  | .str s => "\"" ++ s ++ "\""
  | .arr xs => "[" ++ printJsonList xs ++ "]"
  | .obj fs => "\x7b" ++ printJsonFields fs ++ "\x7d"

/-- Comma-joined array elements. -/
def printJsonList : List Js → String
  | [] => ""
  | [x] => printJson x
  | x :: xs => printJson x ++ "," ++ printJsonList xs

/-- Comma-joined object fields. -/
def printJsonFields : List (String × Js) → String
  | [] => ""
  | [f] => "\"" ++ f.1 ++ "\":" ++ printJson f.2
  | f :: fs => "\"" ++ f.1 ++ "\":" ++ printJson f.2 ++ "," ++ printJsonFields fs
end

/-- The string `JSON.stringify(call)` produces, obtained by printing the
round-tripped tree (stringify applies exactly the drop rules of
`jsonRT`). -/
def jsStringify (j : Js) : String := printJson (jsonRT j)

/-- True when the stringify/parse round trip (after `deepCopyUndefined`
repair) is `deepStrictEqual` to the original call. -/
def roundTripFaithful (call : Js) : Bool :=
  deepEq (deepCopyUndefined (jsonRT call) call) call

/-- Embeds `serializeCall` of src/module-wrapper.ts (lines 267-284): on
a detected round-trip difference it THROWS (the call fails); otherwise
it returns the serialized string. -/
def serializeCall (call : Js) : Except String String :=
  if roundTripFaithful call then .ok (jsStringify call)
  else .error "WARNING: problem serializing arguments to JSON"

/-- Embeds the legacy `serializeCall` of src/unnamed/part_002 (lines
225-242): on a round-trip difference it logs warnings (second component
true) and still returns the serialized string. -/
def serializeCallLegacy (call : Js) : String × Bool :=
  (jsStringify call, !roundTripFaithful call)

/-- Success test for the thrown/returned result. -/
def exceptOk (x : Except String String) : Bool :=
  match x with
  | .ok _ => true
  | .error _ => false

/-- A call whose arguments round-trip with loss: a function value among
`args` serializes to `null`. -/
def c4bad : Js :=
  .obj [("CallId", .str "id1"), ("name", .str "f"),
        ("modulePath", .str "m"), ("args", .arr [.func])]

/-- A call whose arguments round-trip faithfully, including an
`undefined` argument repaired by `deepCopyUndefined`. -/
def c4good : Js :=
  .obj [("CallId", .str "id2"), ("name", .str "g"),
        ("modulePath", .str "m"),
        ("args", .arr [.num 1, .str "a", .undefVal])]

/-- Claim C4 counterexample: the call `c4bad` loses information in the
JSON round trip (a function argument), and `serializeCall` of
src/module-wrapper.ts THROWS on it instead of logging a warning and
returning the serialized string - the call fails. -/
theorem c4_lossy_call_fails_counterexample :
    roundTripFaithful c4bad = false ∧ exceptOk (serializeCall c4bad) = false := by
  decide

/-- Claim C4 (amended): on a round-trip difference the current
`serializeCall` (module-wrapper.ts) throws an error, failing the call,
while only the legacy variant (part_002) logs warnings and still
returns the serialized string; on a faithful round trip both return the
serialized string without warning. -/
theorem c4_serialize_round_trip (call : Js) :
    (roundTripFaithful call = true →
      serializeCall call = .ok (jsStringify call) ∧
      serializeCallLegacy call = (jsStringify call, false)) ∧
    (roundTripFaithful call = false →
      exceptOk (serializeCall call) = false ∧
      serializeCallLegacy call = (jsStringify call, true)) := by
  constructor <;> intro h <;>
    simp [serializeCall, serializeCallLegacy, exceptOk, h]

/-- Witness for C4 (amended): the faithful call `c4good` (whose
`undefined` argument is repaired by `deepCopyUndefined`) serializes
without failure in both variants. -/
theorem c4_serialize_round_trip_witness :
    serializeCall c4good = .ok (jsStringify c4good) ∧
    serializeCallLegacy c4good = (jsStringify c4good, false) :=
  (c4_serialize_round_trip c4good).1 (by decide)

/-! ### Retry predicate (src/cloudify.ts, CloudFunction.cloudifyWithResponse) -/

/-- Per-function counters of src/cloudify.ts (lines 200-210). -/
structure FunctionCounters where
  completed : ℕ := 0
  retries : ℕ := 0
  errors : ℕ := 0
deriving DecidableEq

/-- Error classes the spec distinguishes for retry decisions. -/
inductive ErrKind where
  | network
  | rateLimit
  | serverError5xx
  | providerThrottling
  | queueTimeout
  | userError
  | authFatal
deriving DecidableEq

/-- Modelled from the spec: transient classification of §4.6/§7 -
network, rate-limit, 5xx, provider throttling and queue-timeout errors
are transient, user and auth errors are not. Used only to state the
claim for comparison. -/
def isTransient : ErrKind → Bool
  | .network => true
  | .rateLimit => true
  | .serverError5xx => true
  | .providerThrottling => true
  | .queueTimeout => true
  | .userError => false
  | .authFatal => false

/-- Embeds the `shouldRetry` closure built in
`cloudifyWithResponse` (src/cloudify.ts lines 418-421): it ignores the
error entirely, increments the `retries` counter as a side effect of
being consulted, and returns `n < 3`. -/
def shouldRetryImpl (fc : FunctionCounters) (_err : ErrKind) (n : ℕ) :
    Bool × FunctionCounters :=
  (decide (n < 3), { fc with retries := fc.retries + 1 })

/-- Modelled from the spec: the claim's retry predicate - true iff
`n < maxRetries` (default 2) and the error is transient, or the
speculative-retry trigger fires (enough samples and elapsed beyond
mean plus 3 standard deviations). Used only to state the claim. -/
def claimShouldRetry (e : ErrKind) (n samples minSamples : ℕ)
    (elapsed mean stdev : ℚ) : Bool :=
  (decide (n < 2) && isTransient e) ||
    (decide (minSamples ≤ samples) && decide (mean + 3 * stdev < elapsed))

/-- Claim C5 counterexample: for a non-transient auth error on the
first attempt with no speculative trigger, the claim's predicate is
false, but the code's `shouldRetry` returns true (it retries any error
while `n < 3`). -/
theorem c5_retry_ignores_error_class_counterexample :
    (shouldRetryImpl {} .authFatal 0).1 = true ∧
    claimShouldRetry .authFatal 0 0 1 0 0 0 = false := by
  refine ⟨rfl, ?_⟩
  simp [claimShouldRetry, isTransient]

/-- Claim C5 (amended): the `shouldRetry` predicate the engine passes to
the driver returns true iff `n < 3`, regardless of the error's
classification; there is no transient check and no speculative-retry
trigger, and every consultation increments the `retries` counter. -/
theorem c5_retry_predicate (fc : FunctionCounters) (e : ErrKind) (n : ℕ) :
    ((shouldRetryImpl fc e n).1 = true ↔ n < 3) ∧
    (shouldRetryImpl fc e n).2 = { fc with retries := fc.retries + 1 } := by
  refine ⟨?_, rfl⟩
  simp [shouldRetryImpl]

/-! ### Counter monotonicity (part_000 FunctionCounters,
src/cloudify.ts processResponse counter updates) -/

/-- Per-function counters of the faast era (src/unnamed/part_000 lines
356-367), including `invocations`. -/
structure FaastFunctionCounters where
  invocations : ℕ := 0
  completed : ℕ := 0
  retries : ℕ := 0
  errors : ℕ := 0
deriving DecidableEq

/-- Embeds the counter update at the end of `processResponse`
(src/cloudify.ts lines 346-351): exactly one of `errors`/`completed` is
incremented per terminal response. -/
def processResponseCounters (isErr : Bool) (c : FaastFunctionCounters) :
    FaastFunctionCounters :=
  if isErr then { c with errors := c.errors + 1 }
  else { c with completed := c.completed + 1 }

/-- Engine state: the counters plus the number of registered pending
calls. -/
structure EngState where
  counters : FaastFunctionCounters
  pending : ℕ
deriving DecidableEq

/-- Observable counter events in an instance's life. -/
inductive EngEvent where
  | invoke
  | respond (isErr : Bool)
  | retryAttempt
deriving DecidableEq

/-- Modelled from the spec: the faast-era engine that increments
`invocations` is not under src (only the counter declaration is);
following §4.6, `invoke` registers a pending call and counts an
invocation, a terminal response completes a pending call using the
`processResponse` counter update from the source, and a retry bumps
`retries`. A response with no pending call is impossible (`none`). -/
def engStep (s : EngState) (e : EngEvent) : Option EngState :=
  match e with
  | .invoke =>
    some { counters := { s.counters with
             invocations := s.counters.invocations + 1 },
           pending := s.pending + 1 }
  | .respond isErr =>
    match s.pending with
    | 0 => none
    | p + 1 => some { counters := processResponseCounters isErr s.counters,
                      pending := p }
  | .retryAttempt =>
    some { counters := { s.counters with retries := s.counters.retries + 1 },
           pending := s.pending }

/-- Run of an event list from a state. -/
def engRun (s : EngState) : List EngEvent → Option EngState
  | [] => some s
  | e :: rest =>
    match engStep s e with
    | none => none
    | some s1 => engRun s1 rest

/-- Fresh instance: all counters zero, nothing pending. -/
def engInit : EngState := { counters := {}, pending := 0 }

lemma engStep_preserves_inv (s s' : EngState) (e : EngEvent)
    (h : engStep s e = some s')
    (hinv : s.counters.completed + s.counters.errors + s.pending =
      s.counters.invocations) :
    s'.counters.completed + s'.counters.errors + s'.pending =
      s'.counters.invocations := by
  cases e with
  | invoke =>
    simp [engStep] at h
    subst h
    simp
    omega
  | respond isErr =>
    cases hp : s.pending with
    | zero => simp [engStep, hp] at h
    | succ p =>
      simp [engStep, hp] at h
      subst h
      cases isErr <;> simp [processResponseCounters] <;> omega
  | retryAttempt =>
    simp [engStep] at h
    subst h
    simp
    omega

lemma engRun_preserves_inv (evs : List EngEvent) :
    ∀ s0 s, engRun s0 evs = some s →
      s0.counters.completed + s0.counters.errors + s0.pending =
        s0.counters.invocations →
      s.counters.completed + s.counters.errors + s.pending =
        s.counters.invocations := by
  induction evs with
  | nil =>
    intro s0 s h h0
    simp [engRun] at h
    subst h
    exact h0
  | cons e rest ih =>
    intro s0 s h h0
    cases hstep : engStep s0 e with
    | none => simp [engRun, hstep] at h
    | some s1 =>
      simp [engRun, hstep] at h
      exact ih s1 s h (engStep_preserves_inv s0 s1 e hstep h0)

/-- Claim C6: in every reachable engine state the counters satisfy
`completed + errors ≤ invocations`; every step leaves `completed`,
`errors` and `invocations` non-decreasing; and every terminal response
increments exactly one of `completed`/`errors` by 1. -/
theorem c6_counter_invariants :
    (∀ evs s, engRun engInit evs = some s →
      s.counters.completed + s.counters.errors ≤ s.counters.invocations) ∧
    (∀ s e s', engStep s e = some s' →
      s.counters.completed ≤ s'.counters.completed ∧
      s.counters.errors ≤ s'.counters.errors ∧
      s.counters.invocations ≤ s'.counters.invocations) ∧
    (∀ s b s', engStep s (.respond b) = some s' →
      ((s'.counters.completed = s.counters.completed + 1 ∧
        s'.counters.errors = s.counters.errors) ∨
       (s'.counters.errors = s.counters.errors + 1 ∧
        s'.counters.completed = s.counters.completed))) := by
  refine ⟨?_, ?_, ?_⟩
  · intro evs s h
    have := engRun_preserves_inv evs engInit s h (by simp [engInit])
    omega
  · intro s e s' h
    cases e with
    | invoke => simp [engStep] at h; subst h; simp
    | respond isErr =>
      cases hp : s.pending with
      | zero => simp [engStep, hp] at h
      | succ p =>
        simp [engStep, hp] at h
        subst h
        cases isErr <;> simp [processResponseCounters]
    | retryAttempt => simp [engStep] at h; subst h; simp
  · intro s b s' h
    cases hp : s.pending with
    | zero => simp [engStep, hp] at h
    | succ p =>
      simp [engStep, hp] at h
      subst h
      cases b with
      | false => left; simp [processResponseCounters]
      | true => right; simp [processResponseCounters]

/-- Witness for C6 at the concrete run invoke-then-respond(success):
the resulting state has `completed + errors ≤ invocations`, and the
concrete respond step increments exactly one counter. -/
theorem c6_counter_invariants_witness :
    ((⟨⟨1, 1, 0, 0⟩, 0⟩ : EngState).counters.completed +
      (⟨⟨1, 1, 0, 0⟩, 0⟩ : EngState).counters.errors ≤
      (⟨⟨1, 1, 0, 0⟩, 0⟩ : EngState).counters.invocations) ∧
    (((⟨⟨1, 1, 0, 0⟩, 0⟩ : EngState).counters.completed =
        (⟨⟨1, 0, 0, 0⟩, 1⟩ : EngState).counters.completed + 1 ∧
      (⟨⟨1, 1, 0, 0⟩, 0⟩ : EngState).counters.errors =
        (⟨⟨1, 0, 0, 0⟩, 1⟩ : EngState).counters.errors) ∨
     ((⟨⟨1, 1, 0, 0⟩, 0⟩ : EngState).counters.errors =
        (⟨⟨1, 0, 0, 0⟩, 1⟩ : EngState).counters.errors + 1 ∧
      (⟨⟨1, 1, 0, 0⟩, 0⟩ : EngState).counters.completed =
        (⟨⟨1, 0, 0, 0⟩, 1⟩ : EngState).counters.completed)) :=
  ⟨c6_counter_invariants.1 [.invoke, .respond false] ⟨⟨1, 1, 0, 0⟩, 0⟩ (by decide),
   c6_counter_invariants.2.2 ⟨⟨1, 0, 0, 0⟩, 1⟩ false ⟨⟨1, 1, 0, 0⟩, 0⟩ (by decide)⟩

/-! ### Persistent cache (src/cache.ts, PersistentCache.get) -/

/-- Embeds `PersistentCache.get` over an abstract directory listing:
each entry is (file name, mtime in ms, stored bytes). A missing file is
a failed `stat`; a present entry older than `expiration` yields
`undefined`; otherwise the file bytes are returned. -/
def cacheGet (expiration : ℤ) (entries : List (String × ℤ × List ℕ))
    (key : String) (now : ℤ) : Option (List ℕ) :=
  match entries.find? fun e => e.1 = key with
  | none => none
  | some e => if now - e.2.1 > expiration then none else some e.2.2

/-- Claim C7: `get(key)` returns the stored bytes iff the entry exists
and `now - mtime ≤ expiration`; a missing key yields nothing. -/
theorem c7_cache_get_ttl (expiration : ℤ) (entries : List (String × ℤ × List ℕ))
    (key : String) (now : ℤ) (b : List ℕ) :
    (cacheGet expiration entries key now = some b ↔
      ∃ m, (entries.find? fun e => e.1 = key) = some (key, m, b) ∧
        now - m ≤ expiration) ∧
    ((entries.find? fun e => e.1 = key) = none →
      cacheGet expiration entries key now = none) := by
  constructor
  · cases hf : entries.find? fun e => e.1 = key with
    | none => simp [cacheGet, hf]
    | some e =>
      obtain ⟨k0, m0, b0⟩ := e
      have hkey : k0 = key := by
        have := List.find?_some hf
        simpa using this
      subst hkey
      have hg : cacheGet expiration entries k0 now =
          if now - m0 > expiration then none else some b0 := by
        unfold cacheGet
        rw [hf]
      rw [hg]
      by_cases hexp : now - m0 > expiration
      · rw [if_pos hexp]
        constructor
        · intro h
          cases h
        · rintro ⟨m, hm, hle⟩
          injection hm with hm1
          injection hm1 with hm2 hm3
          injection hm3 with hm4
          subst hm4
          omega
      · rw [if_neg hexp]
        constructor
        · intro h
          injection h with hb
          subst hb
          exact ⟨m0, rfl, by omega⟩
        · rintro ⟨m, hm, hle⟩
          injection hm with hm1
          injection hm1 with hm2 hm3
          injection hm3 with hm4 hm5
          subst hm5
          rfl
  · intro hf
    simp [cacheGet, hf]

/-- Witness for C7: a fresh entry is returned, and a missing key gives
nothing. -/
theorem c7_cache_get_ttl_witness :
    cacheGet 100 [("k", 5, [1, 2])] "k" 10 = some [1, 2] ∧
    cacheGet 100 [("k", 5, [1, 2])] "other" 10 = none :=
  ⟨(c7_cache_get_ttl 100 [("k", 5, [1, 2])] "k" 10 [1, 2]).1.mpr
      ⟨5, by decide, by decide⟩,
   (c7_cache_get_ttl 100 [("k", 5, [1, 2])] "other" 10 []).2 (by decide)⟩

/-! ### Shutdown (src/aws/aws-cloudify.ts, stop) -/

/-- Abstraction of the per-instance state consumed by `stop`: the ids of
the call funnel's pending (unadmitted) waiters, whether a queue state
and a gc promise exist, and the observable progress flags. -/
structure InstanceState where
  pendingWaiterIds : List ℕ
  hasQueueState : Bool
  queueStopped : Bool
  hasGcPromise : Bool
  gcSettled : Bool
  loggerSet : Bool
deriving DecidableEq

/-- Modelled from the spec: queue.ts is absent from src;
`cloudqueue.stop` (§4.5 draining) publishes a `stopqueue` sentinel to
the instance's own response queue and waits until the pollers observe
it, after which the reconciler is stopped. -/
def cloudqueueStop (s : InstanceState) : InstanceState :=
  { s with queueStopped := true }

/-- Embeds `stop` (aws-cloudify.ts lines 819-833): clears the logger,
rejects every pending funnel waiter with `Error("Rejected pending
request")`, then awaits `cloudqueue.stop` when a queue state exists and
awaits the gc promise when one exists. The returned pair is the state
when `stop` completes plus the list of delivered rejections. The
`pendingFutures`/`reject` funnel operations are modelled from the spec
(funnel.ts is absent from src). -/
def stop (s : InstanceState) : InstanceState × List (ℕ × String) :=
  let rejections := s.pendingWaiterIds.map fun w => (w, "Rejected pending request")
  let s1 := { s with loggerSet := false, pendingWaiterIds := [] }
  let s2 := if s.hasQueueState then cloudqueueStop s1 else s1
  let s3 := if s.hasGcPromise then { s2 with gcSettled := true } else s2
  (s3, rejections)

/-- Claim C8: `stop` rejects every pending funnel waiter with the error
message `Rejected pending request`, and when it completes the queue
reconciler has stopped (if one existed) and the gc promise has settled
(if one existed). -/
theorem c8_stop_rejects_and_drains (s : InstanceState) :
    (stop s).2 = (s.pendingWaiterIds.map fun w => (w, "Rejected pending request")) ∧
    (s.hasQueueState = true → (stop s).1.queueStopped = true) ∧
    (s.hasGcPromise = true → (stop s).1.gcSettled = true) := by
  refine ⟨rfl, fun hq => ?_, fun hg => ?_⟩
  · cases hgc : s.hasGcPromise <;>
      simp [stop, cloudqueueStop, hq, hgc]
  · simp [stop, hg]

/-- Witness for C8 at a concrete instance with two pending waiters, a
queue state and a gc promise. -/
theorem c8_stop_rejects_and_drains_witness :
    (stop ⟨[7, 8], true, false, true, false, true⟩).2 =
      ([7, 8].map fun w => (w, "Rejected pending request")) ∧
    (stop ⟨[7, 8], true, false, true, false, true⟩).1.queueStopped = true ∧
    (stop ⟨[7, 8], true, false, true, false, true⟩).1.gcSettled = true :=
  ⟨(c8_stop_rejects_and_drains ⟨[7, 8], true, false, true, false, true⟩).1,
   (c8_stop_rejects_and_drains ⟨[7, 8], true, false, true, false, true⟩).2.1 rfl,
   (c8_stop_rejects_and_drains ⟨[7, 8], true, false, true, false, true⟩).2.2 rfl⟩

/-! ### Garbage collector guard (src/aws/aws-cloudify.ts, collectGarbage) -/

/-- Embeds the guard of `collectGarbage` (aws-cloudify.ts lines
661-668): a module-level in-memory boolean; if set, the call returns
without scanning, otherwise it sets the flag and scans. Result: (scan
performed, flag afterwards). No time source and no cache is consulted. -/
def collectGarbage (garbageCollectorRunning : Bool) : Bool × Bool :=
  if garbageCollectorRunning then (false, garbageCollectorRunning)
  else (true, true)

/-- Modelled from the spec: the claim's gc trigger - scan iff this
process has not yet run gc and the persistent cache's well-known
last-run timestamp is absent or more than one hour (3600000 ms) old.
Used only to state the claim. -/
def claimGcScans (ranInProcess : Bool) (cacheLastRun : Option ℤ) (now : ℤ) : Bool :=
  !ranInProcess &&
    (match cacheLastRun with
     | none => true
     | some t => decide (now - t > 3600000))

/-- Claim C9 counterexample: a fresh process whose persistent cache
records a gc run 10 minutes ago still scans - the code consults no
cache timestamp, so the across-process hourly limit of the claim does
not hold. -/
theorem c9_gc_hourly_cache_counterexample :
    (collectGarbage false).1 = true ∧ claimGcScans false (some 0) 600000 = false := by
  constructor
  · rfl
  · simp [claimGcScans]

/-- Claim C9 (amended): the garbage collector is guarded only by an
in-memory per-process boolean: a first invocation scans and sets the
flag, every later invocation in the same process performs no scan
regardless of elapsed time, and no persistent-cache timestamp is
involved. -/
theorem c9_gc_once_per_process (flag : Bool) :
    (collectGarbage flag).1 = !flag ∧
    (collectGarbage flag).2 = true ∧
    (collectGarbage (collectGarbage flag).2).1 = false := by
  cases flag <;> simp [collectGarbage]

/-! ### Functionstarted timer (src/unnamed/part_001 snsTrampoline,
src/unnamed/part_003 makeTrampoline) -/

/-- Embeds the functionstarted timer shared by the SNS trampoline
(part_001 lines 52-60) and the Google PubSub trampoline (part_003 lines
42-59): a timer armed for 2000 ms publishes one `functionstarted`
message for the call's CallId; the trampoline clears it when
`execute` returns. The messages produced for a call are a function of
the execution duration: none when execution completes within 2000 ms,
exactly one otherwise. `execute` itself catches user errors and always
returns, so the clear is always reached. -/
def startedMessages (callId : String) (execDurationMs : ℕ) : List String :=
  if execDurationMs < 2000 then [] else [callId]

/-- Embeds the record loop of `snsTrampoline`: each SNS record carries
one call (CallId, execution duration) and contributes its timer's
messages. -/
def snsTrampolineStarted : List (String × ℕ) → List String
  | [] => []
  | r :: rest => startedMessages r.1 r.2 ++ snsTrampolineStarted rest

lemma startedMessages_mem (c cid : String) (d : ℕ) :
    c ∈ startedMessages cid d → c = cid ∧ 2000 ≤ d := by
  unfold startedMessages
  split
  · simp
  · rename_i h
    intro hc
    simp at hc
    exact ⟨hc, by omega⟩

lemma startedMessages_count (c cid : String) (d : ℕ) :
    List.count c (startedMessages cid d) ≤ if cid = c then 1 else 0 := by
  unfold startedMessages
  split
  · simp
  · by_cases h : cid = c
    · subst h
      simp
    · rw [if_neg h]
      have hne : ¬ c = cid := fun hc => h hc.symm
      have hnm : c ∉ [cid] := by simp [hne]
      simp [List.count_eq_zero.mpr hnm]

lemma snsTrampolineStarted_not_mem (records : List (String × ℕ)) (c : String)
    (h : c ∉ records.map Prod.fst) : c ∉ snsTrampolineStarted records := by
  induction records with
  | nil => simp [snsTrampolineStarted]
  | cons r rest ih =>
    rw [List.map_cons, List.mem_cons] at h
    push_neg at h
    rw [snsTrampolineStarted, List.mem_append]
    push_neg
    refine ⟨fun hc => ?_, ih h.2⟩
    exact h.1 (startedMessages_mem c r.1 r.2 hc).1

lemma sns_fast_call_not_started (records : List (String × ℕ)) (cid : String)
    (d : ℕ) (hnodup : (records.map Prod.fst).Nodup)
    (hmem : (cid, d) ∈ records) (hd : d < 2000) :
    cid ∉ snsTrampolineStarted records := by
  induction records with
  | nil => simp at hmem
  | cons r rest ih =>
    rw [List.map_cons, List.nodup_cons] at hnodup
    rw [List.mem_cons] at hmem
    rw [snsTrampolineStarted, List.mem_append]
    push_neg
    rcases hmem with heq | hmem
    · have hr1 : r.1 = cid := by rw [← heq]
      have hr2 : r.2 = d := by rw [← heq]
      refine ⟨fun hc => ?_, ?_⟩
      · rw [hr2] at hc
        have := (startedMessages_mem cid r.1 d hc).2
        omega
      · exact snsTrampolineStarted_not_mem rest cid (hr1 ▸ hnodup.1)
    · refine ⟨fun hc => ?_, ih hnodup.2 hmem⟩
      have hcid : cid ∈ rest.map Prod.fst :=
        List.mem_map.mpr ⟨(cid, d), hmem, rfl⟩
      have := (startedMessages_mem cid r.1 r.2 hc).1
      exact hnodup.1 (this ▸ hcid)

/-- Claim C10: over one trampoline invocation with pairwise-distinct
CallIds, at most one `functionstarted` message is published per CallId;
a call whose execution completes within 2000 ms publishes none (its
timer is cleared); and per call the timer publishes at most one message
and none when execution beats the timer. -/
theorem c10_functionstarted_at_most_once (records : List (String × ℕ))
    (c : String) (hnodup : (records.map Prod.fst).Nodup) :
    List.count c (snsTrampolineStarted records) ≤ 1 ∧
    (∀ cid d, (cid, d) ∈ records → d < 2000 →
      cid ∉ snsTrampolineStarted records) ∧
    (∀ cid d, (startedMessages cid d).length ≤ 1 ∧
      (d < 2000 → startedMessages cid d = [])) := by
  refine ⟨?_, ?_, ?_⟩
  · induction records with
    | nil => simp [snsTrampolineStarted]
    | cons r rest ih =>
      rw [List.map_cons, List.nodup_cons] at hnodup
      rw [snsTrampolineStarted, List.count_append]
      by_cases h : r.1 = c
      · have h0 : List.count c (snsTrampolineStarted rest) = 0 :=
          List.count_eq_zero.mpr
            (snsTrampolineStarted_not_mem rest c (h ▸ hnodup.1))
        have h1 := startedMessages_count c r.1 r.2
        rw [if_pos h] at h1
        omega
      · have h1 := startedMessages_count c r.1 r.2
        rw [if_neg h] at h1
        have h2 := ih hnodup.2
        omega
  · intro cid d hmem hd
    exact sns_fast_call_not_started records cid d hnodup hmem hd
  · intro cid d
    constructor
    · unfold startedMessages
      split <;> simp
    · intro hd
      simp [startedMessages, hd]

/-- Witness for C10: one fast call (100 ms) and one slow call (3000 ms);
the slow call's CallId is published at most once and the fast call's is
never published. -/
theorem c10_functionstarted_at_most_once_witness :
    List.count "b" (snsTrampolineStarted [("a", 100), ("b", 3000)]) ≤ 1 ∧
    "a" ∉ snsTrampolineStarted [("a", 100), ("b", 3000)] :=
  ⟨(c10_functionstarted_at_most_once [("a", 100), ("b", 3000)] "b" (by decide)).1,
   (c10_functionstarted_at_most_once [("a", 100), ("b", 3000)] "a" (by decide)).2.1
     "a" 100 (by decide) (by decide)⟩

end Cloudify
